import Mathlib

namespace RustyStudio

/-- Times are i128 milliseconds in the source (`core/time.rs`); the claims never
approach the i128 range, so `Int` models the value exactly. -/
abbrev Time := Int

instance : DecidableEq (Except Nat Nat) := fun a b =>
  match a, b with
  | Except.ok x, Except.ok y =>
    if h : x = y then isTrue (by rw [h]) else isFalse (by intro hc; cases hc; exact h rfl)
  | Except.error x, Except.error y =>
    if h : x = y then isTrue (by rw [h]) else isFalse (by intro hc; cases hc; exact h rfl)
  | Except.ok _, Except.error _ => isFalse (by intro hc; cases hc)
  | Except.error _, Except.ok _ => isFalse (by intro hc; cases hc)

/-- Source `timeline/item.rs`: an `Item` is a start plus a duration (content and
metadata are opaque payload that no placement computation reads). -/
structure Item where
  start : Time
  duration : Time
deriving DecidableEq

/-- Model of `TimeRangeSupport::end` (`core/timerange_trait.rs`): `start + duration`.
(`end` is a Lean keyword, hence `end_time`.) -/
def Item.end_time (it : Item) : Time := it.start + it.duration

/-- Model of `TimeRangeSupport::overlaps`: `self.start <= other.end && self.end >= other.start`. -/
def overlaps (a b : Item) : Bool :=
  decide (a.start ≤ b.end_time) && decide (a.end_time ≥ b.start)

/-- Source `timeline/track.rs`: items plus the interior-mutable `end_cache`. -/
structure Track where
  items : List Item
  end_cache : Option Time
deriving DecidableEq

/-- Model of `Track::default()`: empty items, empty cache. -/
def Track.default : Track := { items := [], end_cache := none }

/-- Model of `Track::update_end_cache`: if the cache is known and below `item.end()`,
raise it to `item.end()`; an unknown cache stays unknown. -/
def Track.update_end_cache (tr : Track) (it : Item) : Track :=
  match tr.end_cache with
  | none => tr
  | some x => if x < it.end_time then { tr with end_cache := some it.end_time } else tr

/-- Model of `Track::force_push_item`: update the cache, then push at the back. -/
def Track.force_push_item (tr : Track) (it : Item) : Track :=
  let tr := tr.update_end_cache it
  { tr with items := tr.items ++ [it] }

/-- The loop of Rust `slice::binary_search_by` keyed on `start`, with the
interval size as structural fuel (each iteration shrinks `right - left`, which
starts at `items.len()`, so `fuel = items.len()` always suffices).  `Less`
moves `left` past `mid`, `Greater` moves `right` down to `mid`, `Equal`
returns `mid` (the `Ok` index); exhaustion returns `left` (the `Err` index). -/
def bsearchGo (xs : List Item) (key : Time) : Nat → Nat → Nat → Nat
  | 0, left, _ => left
  | fuel + 1, left, right =>
    if left < right then
      let mid := left + (right - left) / 2
      let x := (xs.get? mid).getD { start := 0, duration := 0 }
      if x.start < key then bsearchGo xs key fuel (mid + 1) right
      else if key < x.start then bsearchGo xs key fuel left mid
      else mid
    else left

/-- Model of `Track::find_insert_point`: 0 on empty; the length when the cached end is
known and strictly below `item.start()`; otherwise binary search by start,
with `Ok` and `Err` indices used alike (`unwrap_or_else(|index| index)`). -/
def Track.find_insert_point (tr : Track) (it : Item) : Nat :=
  if tr.items.isEmpty then 0
  else
    match tr.end_cache with
    | some e =>
      if e < it.start then tr.items.length
      else bsearchGo tr.items it.start tr.items.length 0 tr.items.length
    | none => bsearchGo tr.items it.start tr.items.length 0 tr.items.length

/-- Model of `Track::check_insert_point`: `index >= len` is unconditionally safe;
`index == 0` requires `item.end() <= items[0].start()`; otherwise the items at
`index-1`, `index`, `index+1` (those that exist) must not overlap the item. -/
def Track.check_insert_point (tr : Track) (index : Nat) (it : Item) : Bool :=
  if tr.items.length ≤ index then true
  else if index = 0 then
    match tr.items.get? index with
    | some c => decide (it.end_time ≤ c.start)
    | none => true
  else
    [index - 1, index, index + 1].all fun i =>
      match tr.items.get? i with
      | none => true
      | some c => !(overlaps c it)

/-- Model of `Track::try_add_item`: find the insert point, check it; on success insert
there and update the cache, returning `Ok(point)`; on failure return
`Err(point)` with no mutation. -/
def Track.try_add_item (tr : Track) (it : Item) : Track × Except Nat Nat :=
  let insert_point := tr.find_insert_point it
  if tr.check_insert_point insert_point it then
    let tr2 := { tr with items := tr.items.insertIdx insert_point it }
    (tr2.update_end_cache it, Except.ok insert_point)
  else
    (tr, Except.error insert_point)

/-- Model of `Track::take_at`: the source clears the cache only in its `index >= len`
branch and then calls `Vec::remove`, which panics out of range; `none` models
that panic.  In range, the item is removed and the cache is left untouched. -/
def Track.take_at (tr : Track) (index : Nat) : Option (Item × Track) :=
  let tr1 := if tr.items.length ≤ index then { tr with end_cache := none } else tr
  match tr1.items.get? index with
  | none => none
  | some x => some (x, { tr1 with items := tr1.items.eraseIdx index })

/-- Model of `impl TimeRangeSupport for Track`: `duration()` serves the cache if known,
else scans for the maximal `item.end()` (0 on empty) and memoises it. -/
def Track.duration (tr : Track) : Time × Track :=
  match tr.end_cache with
  | some e => (e, tr)
  | none =>
    let new_end := tr.items.foldl (fun acc x => if x.end_time > acc then x.end_time else acc) 0
    (new_end, { tr with end_cache := some new_end })

/-- Source `timeline/timeline.rs`: an ordered vector of tracks (metadata is opaque
payload that no placement computation reads). -/
structure Timeline where
  tracks : List Track
deriving DecidableEq

/-- Model of `Timeline::default()`: one empty sentinel track. -/
def Timeline.default : Timeline := { tracks := [Track.default] }

/-- Model of `Timeline::tracks_count`. -/
def Timeline.tracks_count (t : Timeline) : Nat := t.tracks.length

/-- Model of `Timeline::get_track`. -/
def Timeline.get_track (t : Timeline) (index : Nat) : Option Track :=
  t.tracks.get? index

/-- Model of `Timeline::clear`: drop all tracks, push one default track. -/
def Timeline.clear (_t : Timeline) : Timeline := { tracks := [Track.default] }

/-- Model of `Timeline::push_track`: the source tests
`last.is_none() && last.unwrap().is_empty()`; when `tracks` is non-empty the
conjunction short-circuits to false, so the track is simply appended, and when
`tracks` is empty `last.unwrap()` panics (modelled as `none`). -/
def Timeline.push_track (t : Timeline) (track : Track) : Option Timeline :=
  match t.tracks.getLast? with
  | some _ => some { tracks := t.tracks ++ [track] }
  | none => none

/-- Model of `Timeline::take_track`: `None` leaving the timeline unchanged when
`index >= len`; otherwise remove the track and re-insert one default track if
that emptied the list. -/
def Timeline.take_track (t : Timeline) (index : Nat) : Timeline × Option Track :=
  if t.tracks.length ≤ index then (t, none)
  else
    let r := t.tracks.get? index
    let ts := t.tracks.eraseIdx index
    ({ tracks := if ts.isEmpty then [Track.default] else ts }, r)

/-- The first-fit loop of `Timeline::add_item`: try each track in order; the
track accepting the item is replaced by its updated state (`try_add_item`
returns the track unchanged on failure), `none` when every track refuses. -/
def place_first_fit (it : Item) : List Track → Option (List Track)
  | [] => none
  | tr :: rest =>
    match tr.try_add_item it with
    | (tr2, Except.ok _) => some (tr2 :: rest)
    | (_, Except.error _) => (place_first_fit it rest).map (tr :: ·)

/-- Model of `Timeline::add_item`: first-fit over the existing tracks; if all refuse,
push a fresh default track holding just the item (via `force_push_item`). -/
def Timeline.add_item (t : Timeline) (it : Item) : Timeline :=
  match place_first_fit it t.tracks with
  | some ts => { tracks := ts }
  | none => { tracks := t.tracks ++ [Track.default.force_push_item it] }

/-- Model of `impl Clone for Track` (`track.rs:24-32`): the items are cloned
(an `Item` clone copies start and duration) but `end_cache` is explicitly
reset to `RefCell::new(None)`. -/
def Track.clone (tr : Track) : Track :=
  { items := tr.items, end_cache := none }

/-- Model of `impl Clone for Timeline`: start from `Self::default()` (one empty
sentinel track) and append clones of all of the source's tracks, each cloned
via `Track::clone` (which resets its end-cache). -/
def Timeline.clone (t : Timeline) : Timeline :=
  { tracks := Timeline.default.tracks ++ t.tracks.map Track.clone }

/-- Source `timeline/timerange.rs`: a start plus a duration. -/
structure TimeRange where
  start : Time
  duration : Time
deriving DecidableEq

/-- Model of `TimeRangeSupport::end` for `TimeRange`. -/
def TimeRange.end_time (r : TimeRange) : Time := r.start + r.duration

/-- Model of `TimeRange::whole_timerange`: one pass folding an optional minimum start
and maximum end; the source unwraps both options at the end, which panics on
an empty input (modelled as `none` — only reachable for the empty list, since
one iteration fills both). -/
def whole_timerange (ranges : List TimeRange) : Option TimeRange :=
  let acc := ranges.foldl
    (fun (p : Option Time × Option Time) r =>
      (match p.1 with
       | none => some r.start
       | some s => if s > r.start then some r.start else some s,
       match p.2 with
       | none => some r.end_time
       | some e => if e < r.end_time then some r.end_time else some e))
    (none, none)
  match acc with
  | (some s, some e) => some { start := s, duration := e - s }
  | _ => none

/-- The track of the C1 scenario: `[0,10)` and `[30,40)` inserted through the
safe API (`try_add_item`) into a default track. -/
def c1_track : Track :=
  ((Track.default.try_add_item { start := 0, duration := 10 }).1.try_add_item
    { start := 30, duration := 10 }).1

/-- The C1 candidate `[35,45)`. -/
def c1_item : Item := { start := 35, duration := 10 }

/-- C1: the claim is false on the code: on the track `[0,10)`, `[30,40)` the
candidate `[35,45)` gets insert point 2, which is the append position
(`index >= items.len()`), and `check_insert_point` accepts the append position
unconditionally, so `try_add_item` returns `Ok(2)` and the track grows to 3
items instead of failing and staying at 2. -/
theorem c1_counterexample :
    (c1_track.try_add_item c1_item).2 = Except.ok 2 ∧
    (c1_track.try_add_item c1_item).1.items.length = 3 := by
  constructor <;> rfl

/-- C1 (amended): on a track holding `[0,10)` and `[30,40)` (built via the
safe API), `try_add_item([35,45))` succeeds with index 2 — the append position
is never checked against the last item — leaving the track with the three
items `[0,10)`, `[30,40)`, `[35,45)` in order and the end-cache still unknown. -/
theorem c1_append_is_unchecked :
    c1_track.try_add_item c1_item =
      ({ items := [{ start := 0, duration := 10 }, { start := 30, duration := 10 },
          { start := 35, duration := 10 }], end_cache := none },
        Except.ok 2) := by
  rfl

/-- The two safe insertions of the C2 counterexample: `[30,40)` then `[35,45)`
into a default track. -/
def c2_first : Track × Except Nat Nat :=
  Track.default.try_add_item { start := 30, duration := 10 }

/-- Second step of the C2 counterexample. -/
def c2_second : Track × Except Nat Nat :=
  c2_first.1.try_add_item { start := 35, duration := 10 }

/-- C2: the no-overlap invariant is false on the code: inserting `[30,40)`
then `[35,45)` through `try_add_item` succeeds both times (the second lands at
the unchecked append position), leaving two items with `overlaps = true`. -/
theorem c2_counterexample :
    c2_first.2 = Except.ok 0 ∧ c2_second.2 = Except.ok 1 ∧
    c2_second.1.items =
      [{ start := 30, duration := 10 }, { start := 35, duration := 10 }] ∧
    overlaps { start := 30, duration := 10 } { start := 35, duration := 10 } = true := by
  refine ⟨rfl, rfl, rfl, rfl⟩

/-- C2 (amended): what a successful `try_add_item` actually guarantees: the
returned index is `find_insert_point`, the check passed, an index-0 insert
ends at or before the first item's start (an exact touch — still an overlap
under the inclusive test — is admitted), and an interior insert
(`0 < idx < len`) overlaps none of the existing items at `idx-1`, `idx`,
`idx+1`; an insert at the append position (`idx >= len`) is not checked at
all, so the track-wide pairwise no-overlap invariant does not hold. -/
theorem try_add_item_success_local_safety (tr : Track) (it : Item) (idx : Nat)
    (h : (tr.try_add_item it).2 = Except.ok idx) :
    idx = tr.find_insert_point it ∧
    tr.check_insert_point idx it = true ∧
    (idx = 0 → ∀ c, tr.items.get? 0 = some c → it.end_time ≤ c.start) ∧
    (0 < idx → idx < tr.items.length →
      ∀ j c, (j = idx - 1 ∨ j = idx ∨ j = idx + 1) →
        tr.items.get? j = some c → overlaps c it = false) := by
  unfold Track.try_add_item at h
  by_cases hc : tr.check_insert_point (tr.find_insert_point it) it
  · simp only [hc, if_true] at h
    cases h
    refine ⟨rfl, hc, ?_, ?_⟩
    · intro h0 c hgc
      unfold Track.check_insert_point at hc
      have hlen : ¬ tr.items.length ≤ tr.find_insert_point it := by
        intro hge
        rw [h0] at hge
        have : tr.items.get? 0 = none := List.get?_eq_none.mpr hge
        rw [this] at hgc; cases hgc
      rw [if_neg hlen, if_pos h0, h0, hgc] at hc
      exact of_decide_eq_true hc
    · intro hpos hlt j c hj hgc
      unfold Track.check_insert_point at hc
      have hlen : ¬ tr.items.length ≤ tr.find_insert_point it := by omega
      have hne : ¬ tr.find_insert_point it = 0 := by omega
      rw [if_neg hlen, if_neg hne] at hc
      have hall := List.all_eq_true.mp hc
      have hjmem : j ∈ [tr.find_insert_point it - 1, tr.find_insert_point it,
          tr.find_insert_point it + 1] := by
        simp only [List.mem_cons, List.mem_singleton]
        tauto
      have hj2 := hall j hjmem
      rw [hgc] at hj2
      simpa using hj2
  · simp only [hc, if_false] at h
    cases h

/-- A track and candidate exercising the interior branch of the amended C2
theorem: `[12,17)` lands strictly between `[0,10)` and `[30,40)`. -/
def c2w_track : Track :=
  { items := [{ start := 0, duration := 10 }, { start := 30, duration := 10 }],
    end_cache := none }

/-- Candidate for the C2 witness. -/
def c2w_item : Item := { start := 12, duration := 5 }

/-- Witness for the amended C2 theorem at a concrete interior insertion
(`try_add_item` returns `Ok(1)` on the track `[0,10)`, `[30,40)`). -/
theorem try_add_item_success_local_safety_witness :
    1 = c2w_track.find_insert_point c2w_item ∧
    c2w_track.check_insert_point 1 c2w_item = true ∧
    ((1 : Nat) = 0 → ∀ c, c2w_track.items.get? 0 = some c → c2w_item.end_time ≤ c.start) ∧
    ((0 : Nat) < 1 → 1 < c2w_track.items.length →
      ∀ j c, (j = 1 - 1 ∨ j = 1 ∨ j = 1 + 1) →
        c2w_track.items.get? j = some c → overlaps c c2w_item = false) :=
  try_add_item_success_local_safety c2w_track c2w_item 1 (by decide)

/-- The non-sentinel track pushed in the C3 evaluation: it holds `[0,10)`. -/
def c3_new_track : Track := Track.default.force_push_item { start := 0, duration := 10 }

/-- C3: the sentinel is never discarded: the source tests
`last.is_none() && last.unwrap().is_empty()`, which is false whenever a last
track exists, so pushing onto the default single-empty-track timeline yields
two tracks with the empty sentinel still at index 0 (and the pushed track at
index 1), not one track. -/
theorem c3_push_track_keeps_sentinel :
    Timeline.default.push_track c3_new_track =
      some { tracks := [Track.default, c3_new_track] } ∧
    ({ tracks := [Track.default, c3_new_track] } : Timeline).tracks_count = 2 ∧
    ({ tracks := [Track.default, c3_new_track] } : Timeline).get_track 0 =
      some Track.default ∧
    Track.default ≠ c3_new_track := by
  refine ⟨rfl, rfl, rfl, by decide⟩

/-- The C4 track: `[0,10)` inserted safely, then `duration()` read once so the
end-cache is primed to 10. -/
def c4_track : Track :=
  (Track.duration (Track.default.try_add_item { start := 0, duration := 10 }).1).2

/-- C4: the claim is right and `take_at` is wrong: it invalidates the
end-cache only in its `index >= len` branch (where the following `Vec::remove`
panics anyway), so an in-range take leaves the stale cache: after taking the
only item `[0,10)`, `duration()` still reports 10 while the track is empty,
whose maximum item end is 0. -/
theorem c4_take_at_stale_cache :
    c4_track.end_cache = some 10 ∧
    c4_track.take_at 0 =
      some ({ start := 0, duration := 10 }, { items := [], end_cache := some 10 }) ∧
    (Track.duration { items := [], end_cache := some 10 }).1 = 10 ∧
    (10 : Time) ≠ 0 := by
  refine ⟨rfl, rfl, rfl, by decide⟩

/-- C5: the claim is right and the code is wrong: an out-of-range `take_at`
reaches `Vec::remove`, which panics (modelled `none`); no recoverable
`BoundsError` is returned — indeed no error channel exists in `take_at`'s
return type, and no `BoundsError` type exists anywhere in the source. -/
theorem c5_take_at_out_of_range_panics :
    Track.default.take_at 0 = none ∧
    ({ items := [{ start := 0, duration := 10 }], end_cache := none } : Track).take_at 1 =
      none := by
  refine ⟨rfl, rfl⟩

/-- C6: `try_add_item` computes `idx = find_insert_point`; when
`check_insert_point(idx, candidate)` holds it inserts the candidate at `idx`,
maps a known end-cache to `max(cached, candidate.end())` (an unknown cache
stays unknown), and returns `Ok(idx)`; otherwise it returns `Err(idx)` with
the track — items and cache — completely unchanged. -/
theorem try_add_item_spec (tr : Track) (it : Item) :
    (tr.check_insert_point (tr.find_insert_point it) it = true →
      tr.try_add_item it =
        ({ items := tr.items.insertIdx (tr.find_insert_point it) it,
           end_cache := tr.end_cache.map fun c => max c it.end_time },
         Except.ok (tr.find_insert_point it))) ∧
    (tr.check_insert_point (tr.find_insert_point it) it = false →
      tr.try_add_item it = (tr, Except.error (tr.find_insert_point it))) := by
  constructor
  · intro hc
    unfold Track.try_add_item
    rw [if_pos hc]
    unfold Track.update_end_cache
    cases hec : tr.end_cache with
    | none => simp [hec]
    | some c =>
      simp only [hec, Option.map_some']
      by_cases hlt : c < it.end_time
      · rw [if_pos hlt]
        have : max c it.end_time = it.end_time := max_eq_right (le_of_lt hlt)
        rw [this]
      · rw [if_neg hlt]
        have : max c it.end_time = c := max_eq_left (le_of_not_lt hlt)
        rw [this]
  · intro hc
    unfold Track.try_add_item
    rw [if_neg (by rw [hc]; exact Bool.false_ne_true)]

/-- A track with a primed cache for the C6 witness: item `[0,10)`, cache 10. -/
def c6w_track : Track :=
  { items := [{ start := 0, duration := 10 }], end_cache := some 10 }

/-- Candidate `[20,25)` for the C6 witness (taken via the cache fast path). -/
def c6w_item : Item := { start := 20, duration := 5 }

/-- Witness for the C6 theorem: inserting `[20,25)` behind `[0,10)` with a
known cache of 10 extends the cache to `max 10 25`. -/
theorem try_add_item_spec_witness :
    c6w_track.try_add_item c6w_item =
      ({ items := c6w_track.items.insertIdx (c6w_track.find_insert_point c6w_item) c6w_item,
         end_cache := c6w_track.end_cache.map fun c => max c c6w_item.end_time },
       Except.ok (c6w_track.find_insert_point c6w_item)) :=
  (try_add_item_spec c6w_track c6w_item).1 (by decide)

/-- When the first-fit loop refuses everywhere, every track rejected the item. -/
theorem place_first_fit_none_spec (it : Item) :
    ∀ ts : List Track, place_first_fit it ts = none →
      ∀ j trj, ts.get? j = some trj → ∃ e, (trj.try_add_item it).2 = Except.error e := by
  intro ts
  induction ts with
  | nil =>
    intro _ j trj hj
    rw [List.get?_nil] at hj
    cases hj
  | cons hd tl ih =>
    intro hn j trj hj
    unfold place_first_fit at hn
    cases htr : hd.try_add_item it with
    | mk tr2 r =>
      rw [htr] at hn
      cases r with
      | ok k => cases hn
      | error e =>
        cases hp : place_first_fit it tl with
        | some ts3 => rw [hp] at hn; cases hn
        | none =>
          cases j with
          | zero =>
            rw [List.get?_cons_zero] at hj
            cases hj
            exact ⟨e, by rw [htr]⟩
          | succ j2 =>
            rw [List.get?_cons_succ] at hj
            exact ih hp j2 trj hj

/-- When the first-fit loop succeeds, some track at position `i` accepted the
item, every earlier track rejected it, and only track `i` was replaced. -/
theorem place_first_fit_some_spec (it : Item) :
    ∀ ts ts2 : List Track, place_first_fit it ts = some ts2 →
      ∃ i tri, ts.get? i = some tri ∧
        (∃ k, (tri.try_add_item it).2 = Except.ok k) ∧
        (∀ j trj, j < i → ts.get? j = some trj →
          ∃ e, (trj.try_add_item it).2 = Except.error e) ∧
        ts2 = ts.set i (tri.try_add_item it).1 := by
  intro ts
  induction ts with
  | nil => intro ts2 hs; cases hs
  | cons hd tl ih =>
    intro ts2 hs
    unfold place_first_fit at hs
    cases htr : hd.try_add_item it with
    | mk tr2 r =>
      rw [htr] at hs
      cases r with
      | ok k =>
        cases hs
        refine ⟨0, hd, rfl, ⟨k, by rw [htr]⟩, ?_, ?_⟩
        · intro j trj hj
          omega
        · show tr2 :: tl = (hd.try_add_item it).1 :: tl
          rw [htr]
      | error e =>
        cases hp : place_first_fit it tl with
        | none => rw [hp] at hs; cases hs
        | some ts3 =>
          rw [hp] at hs
          cases hs
          obtain ⟨i, tri, hgi, hok, hbef, hset⟩ := ih ts3 hp
          refine ⟨i + 1, tri, by rw [List.get?_cons_succ]; exact hgi, hok, ?_, ?_⟩
          · intro j trj hj hgj
            cases j with
            | zero =>
              rw [List.get?_cons_zero] at hgj
              cases hgj
              exact ⟨e, by rw [htr]⟩
            | succ j2 =>
              rw [List.get?_cons_succ] at hgj
              exact hbef j2 trj (by omega) hgj
          · show hd :: ts3 = hd :: tl.set i (tri.try_add_item it).1
            rw [hset]

/-- C7: `add_item` places the segment into the lowest-indexed track whose
`try_add_item` succeeds, replacing only that track; if every track rejects it,
a fresh track holding exactly the segment is appended.  The segment is always
placed and the track count grows by at most one. -/
theorem add_item_first_fit (t : Timeline) (it : Item) :
    ((t.add_item it).tracks_count = t.tracks_count ∨
      (t.add_item it).tracks_count = t.tracks_count + 1) ∧
    ((∃ i tri, t.get_track i = some tri ∧
        (∃ k, (tri.try_add_item it).2 = Except.ok k) ∧
        (∀ j trj, j < i → t.get_track j = some trj →
          ∃ e, (trj.try_add_item it).2 = Except.error e) ∧
        (t.add_item it).tracks = t.tracks.set i (tri.try_add_item it).1) ∨
      ((∀ j trj, t.get_track j = some trj → ∃ e, (trj.try_add_item it).2 = Except.error e) ∧
        (t.add_item it).tracks = t.tracks ++ [Track.default.force_push_item it])) := by
  cases hp : place_first_fit it t.tracks with
  | some ts2 =>
    obtain ⟨i, tri, hgi, hok, hbef, hset⟩ := place_first_fit_some_spec it t.tracks ts2 hp
    constructor
    · left
      simp [Timeline.add_item, hp, Timeline.tracks_count, hset]
    · exact Or.inl ⟨i, tri, hgi, hok, hbef, by simp [Timeline.add_item, hp, hset]⟩
  | none =>
    constructor
    · right
      simp [Timeline.add_item, hp, Timeline.tracks_count]
    · exact Or.inr ⟨place_first_fit_none_spec it t.tracks hp, by simp [Timeline.add_item, hp]⟩

/-- Witness for the C7 theorem at the default timeline and `[0,10)`. -/
theorem add_item_first_fit_witness :
    (Timeline.default.add_item { start := 0, duration := 10 }).tracks_count =
      Timeline.default.tracks_count ∨
    (Timeline.default.add_item { start := 0, duration := 10 }).tracks_count =
      Timeline.default.tracks_count + 1 :=
  (add_item_first_fit Timeline.default { start := 0, duration := 10 }).1

/-- A mutation of the C8 claim: either `take_track(i)` or `clear()`. -/
inductive TLOp where
  | take (index : Nat)
  | clr

/-- Run one timeline mutation, keeping the timeline state. -/
def apply_op (t : Timeline) : TLOp → Timeline
  | TLOp.take i => (t.take_track i).1
  | TLOp.clr => t.clear

/-- Run a sequence of timeline mutations. -/
def apply_ops (t : Timeline) (ops : List TLOp) : Timeline :=
  ops.foldl apply_op t

/-- Helper: `take_track` keeps the track list non-empty. -/
theorem take_track_count_pos (t : Timeline) (i : Nat) (h : 1 ≤ t.tracks_count) :
    1 ≤ ((t.take_track i).1).tracks_count := by
  unfold Timeline.take_track
  by_cases hle : t.tracks.length ≤ i
  · rw [if_pos hle]
    exact h
  · rw [if_neg hle]
    simp only [Timeline.tracks_count]
    by_cases he : (t.tracks.eraseIdx i).isEmpty
    · simp [he]
    · simp only [he, if_neg]
      have : t.tracks.eraseIdx i ≠ [] := by
        intro hnil
        rw [hnil] at he
        exact he rfl
      have := List.length_pos.mpr this
      simpa using this

/-- C8: every sequence of `take_track` and `clear` calls leaves at least one
track: removing the last track or clearing re-inserts one default track. -/
theorem tracks_nonempty_after_ops (ops : List TLOp) :
    ∀ t : Timeline, 1 ≤ t.tracks_count → 1 ≤ (apply_ops t ops).tracks_count := by
  induction ops with
  | nil =>
    intro t h
    exact h
  | cons op rest ih =>
    intro t h
    show 1 ≤ (apply_ops (apply_op t op) rest).tracks_count
    apply ih
    cases op with
    | take i => exact take_track_count_pos t i h
    | clr => exact Nat.le_refl 1

/-- Witness for the C8 theorem: a concrete mutation sequence on the default
timeline. -/
theorem tracks_nonempty_after_ops_witness :
    1 ≤ (apply_ops Timeline.default [TLOp.take 0, TLOp.clr, TLOp.take 3]).tracks_count :=
  tracks_nonempty_after_ops [TLOp.take 0, TLOp.clr, TLOp.take 3] Timeline.default (by decide)

/-- C9: `Clone for Timeline` starts from `Self::default()` and appends copies
of the source's tracks, so the clone has one more track than the source: a
fresh empty sentinel at index 0 followed by `Track::clone` copies of the
source's tracks in order (same items; each copy's end-cache reset to unknown
by `Track::clone`). -/
theorem clone_prepends_sentinel (t : Timeline) :
    (t.clone).tracks_count = t.tracks_count + 1 ∧
    (t.clone).get_track 0 = some Track.default ∧
    ∀ i, (t.clone).get_track (i + 1) = (t.get_track i).map Track.clone := by
  refine ⟨?_, rfl, ?_⟩
  · show (Timeline.default.tracks ++ t.tracks.map Track.clone).length = t.tracks.length + 1
    simp [Timeline.default]
  · intro i
    show (Timeline.default.tracks ++ t.tracks.map Track.clone).get? (i + 1) =
      (t.tracks.get? i).map Track.clone
    rw [show Timeline.default.tracks ++ t.tracks.map Track.clone =
      Track.default :: t.tracks.map Track.clone from rfl]
    rw [List.get?_cons_succ]
    exact List.get?_map Track.clone t.tracks i

/-- One step of the `whole_timerange` accumulation, split out for the proofs:
lower a known minimum start, raise a known maximum end, seed unknown ones. -/
def wt_step (p : Option Time × Option Time) (r : TimeRange) : Option Time × Option Time :=
  (match p.1 with
   | none => some r.start
   | some s => if s > r.start then some r.start else some s,
   match p.2 with
   | none => some r.end_time
   | some e => if e < r.end_time then some r.end_time else some e)

/-- With both accumulators known, the `whole_timerange` fold computes the
running minimum start and maximum end. -/
theorem wt_fold_some (l : List TimeRange) :
    ∀ m M : Time,
      l.foldl wt_step (some m, some M) =
        (some (l.foldl (fun a r => min a r.start) m),
         some (l.foldl (fun a r => max a r.end_time) M)) := by
  induction l with
  | nil =>
    intro m M
    rfl
  | cons r rs ih =>
    intro m M
    have h1 : wt_step (some m, some M) r = (some (min m r.start), some (max M r.end_time)) := by
      unfold wt_step
      by_cases hs : m > r.start
      · by_cases hE : M < r.end_time
        · simp only [hs, hE, if_pos]
          rw [min_eq_right (le_of_lt hs), max_eq_right (le_of_lt hE)]
        · simp only [if_pos hs, if_neg hE]
          rw [min_eq_right (le_of_lt hs), max_eq_left (le_of_not_lt hE)]
      · by_cases hE : M < r.end_time
        · simp only [if_neg hs, if_pos hE]
          rw [min_eq_left (le_of_not_lt hs), max_eq_right (le_of_lt hE)]
        · simp only [if_neg hs, if_neg hE]
          rw [min_eq_left (le_of_not_lt hs), max_eq_left (le_of_not_lt hE)]
    rw [List.foldl_cons, h1, ih, List.foldl_cons, List.foldl_cons]

/-- C10: `whole_timerange` is `none` (an unwrap of `None`, i.e. a panic) on
the empty vector; on any non-empty vector it returns the range from the
minimum start to the maximum end of the inputs. -/
theorem whole_timerange_minmax :
    whole_timerange ([] : List TimeRange) = none ∧
    ∀ (a : TimeRange) (l : List TimeRange),
      ∃ r, whole_timerange (a :: l) = some r ∧
        r.start = l.foldl (fun acc x => min acc x.start) a.start ∧
        r.end_time = l.foldl (fun acc x => max acc x.end_time) a.end_time := by
  constructor
  · rfl
  · intro a l
    have hfold : (a :: l).foldl wt_step (none, none) =
        (some (l.foldl (fun acc x => min acc x.start) a.start),
         some (l.foldl (fun acc x => max acc x.end_time) a.end_time)) := by
      rw [List.foldl_cons]
      have : wt_step (none, none) a = (some a.start, some a.end_time) := rfl
      rw [this, wt_fold_some]
    refine ⟨{ start := l.foldl (fun acc x => min acc x.start) a.start,
              duration := l.foldl (fun acc x => max acc x.end_time) a.end_time -
                l.foldl (fun acc x => min acc x.start) a.start }, ?_, rfl, ?_⟩
    · unfold whole_timerange
      have hsame : ((a :: l).foldl
          (fun (p : Option Time × Option Time) r =>
            (match p.1 with
             | none => some r.start
             | some s => if s > r.start then some r.start else some s,
             match p.2 with
             | none => some r.end_time
             | some e => if e < r.end_time then some r.end_time else some e))
          (none, none)) = (a :: l).foldl wt_step (none, none) := rfl
      rw [hsame, hfold]
    · generalize l.foldl (fun acc x => min acc x.start) a.start = S
      generalize l.foldl (fun acc x => max acc x.end_time) a.end_time = E
      show S + (E - S) = E
      ring

end RustyStudio
